import Mathlib

/-!
# cppa::local_actor

A shallow embedding of the inline member functions of `cppa::local_actor`
(`cppa/local_actor.hpp`) and theorems about its send path, its flags and
`quit_normal`.

Modelling conventions.

* An actor or channel is identified by its address, a natural number; an
  `actor_ptr` is `none` for the null pointer and `some n` otherwise.
* `any_tuple` is opaque to this header, so it is a type parameter.
* The header calls three virtual member functions that it does not define:
  `channel::enqueue`, `actor::chained_enqueue` and `local_actor::quit`.  They
  are fields of `Collaborators`.  `enqueue` and `chained_enqueue` act on a
  `World` (mailboxes, scheduler, every object other than the six data members
  of the calling `local_actor`) and return normally; `quit` is a member of the
  calling object, so it may also rewrite the data members, and it may leave by
  an exception.
* Every function that calls a virtual returns, next to the new data members
  and the new world, the list of virtual calls made by its own body, in
  program order.
-/

namespace cppa

/-- Smart pointer to an actor: `none` is the null pointer. -/
abbrev actor_ptr := Option Nat

/-- The data members of `local_actor` (lines 54-59 of the header). -/
structure local_actor (any_tuple : Type) where
  m_chaining : Bool
  m_trap_exit : Bool
  m_is_scheduled : Bool
  m_chained : actor_ptr
  m_last_sender : actor_ptr
  m_last_dequeued : any_tuple
deriving DecidableEq, Repr

/-- A virtual call made by the body of one of the inline member functions.
For `chained_enqueue` the value returned by the callee is recorded too. -/
inductive Call (any_tuple : Type) where
  | enqueue (whom : Nat) (sender : Nat) (what : any_tuple)
  | chained_enqueue (whom : Nat) (sender : Nat) (what : any_tuple) (result : Bool)
  | quit (reason : Nat)
deriving DecidableEq, Repr

/-- What the header uses and does not define: the virtual member functions
`whom->enqueue(sender, what)`, `whom->chained_enqueue(sender, what)` and
`this->quit(reason)`, and the constant `exit_reason::normal` of
`cppa/exit_reason.hpp`.  The `Bool` returned by `quit` tells whether it left
by an exception. -/
structure Collaborators (World any_tuple : Type) where
  enqueue : Nat → Nat → any_tuple → World → World
  chained_enqueue : Nat → Nat → any_tuple → World → Bool × World
  quit : Nat → local_actor any_tuple → World → local_actor any_tuple × World × Bool
  exit_reason_normal : Nat

/-- The result of running a member function: the data members, the world and
the virtual calls the body made. -/
structure Effect (World any_tuple : Type) where
  actor : local_actor any_tuple
  world : World
  calls : List (Call any_tuple)
deriving DecidableEq, Repr

variable {World any_tuple : Type}

/-- Target, sender and payload of a delivery call (`enqueue` or
`chained_enqueue`); `none` for any other call. -/
def Call.delivery : Call any_tuple → Option (Nat × Nat × any_tuple)
  | .enqueue whom sender what => some (whom, sender, what)
  | .chained_enqueue whom sender what _ => some (whom, sender, what)
  | .quit _ => none

/-- Whether the call is a call of `chained_enqueue`. -/
def Call.is_chained : Call any_tuple → Bool
  | .chained_enqueue _ _ _ _ => true
  | _ => false

/-- Whether the call is a call of `enqueue`. -/
def Call.is_enqueue : Call any_tuple → Bool
  | .enqueue _ _ _ => true
  | _ => false

/-- Whether the call is a `chained_enqueue` that returned `true`. -/
def Call.is_accepted : Call any_tuple → Bool
  | .chained_enqueue _ _ _ result => result
  | _ => false

namespace local_actor

/-- Model of a call `quit(reason)` of the pure virtual member function
`virtual void quit(std::uint32_t reason) = 0`: the implementation is taken
from the collaborators and the call is recorded.  The last component tells
whether the call left by an exception. -/
def quit (env : Collaborators World any_tuple) (reason : Nat) (a : local_actor any_tuple)
    (w : World) : Effect World any_tuple × Bool :=
  let r := env.quit reason a w
  (⟨r.1, r.2.1, [Call.quit reason]⟩, r.2.2)

/-- Model of `void quit_normal()`: `quit(exit_reason::normal);`.  The last
component tells whether the call left by an exception. -/
def quit_normal (env : Collaborators World any_tuple) (a : local_actor any_tuple)
    (w : World) : Effect World any_tuple × Bool :=
  quit env env.exit_reason_normal a w

/-- Model of `bool trap_exit() const`. -/
def trap_exit (a : local_actor any_tuple) : Bool := a.m_trap_exit

/-- Model of `void trap_exit(bool new_value)`. -/
def trap_exit_set (a : local_actor any_tuple) (new_value : Bool) : local_actor any_tuple :=
  { a with m_trap_exit := new_value }

/-- Model of `bool chaining() const`. -/
def chaining (a : local_actor any_tuple) : Bool := a.m_chaining

/-- Model of `void chaining(bool new_value)`. -/
def chaining_set (a : local_actor any_tuple) (new_value : Bool) : local_actor any_tuple :=
  if a.m_is_scheduled then { a with m_chaining := new_value } else a

/-- Model of `any_tuple& last_dequeued()`, read as a getter. -/
def last_dequeued (a : local_actor any_tuple) : any_tuple := a.m_last_dequeued

/-- Model of `actor_ptr& last_sender()`, read as a getter. -/
def last_sender (a : local_actor any_tuple) : actor_ptr := a.m_last_sender

/-- Model of `actor_ptr& chained_actor()`, read as a getter. -/
def chained_actor (a : local_actor any_tuple) : actor_ptr := a.m_chained

/-- Model of `void send_message(channel* whom, any_tuple what)`; `self` is the
address of the calling object. -/
def send_message_channel (env : Collaborators World any_tuple) (self : Nat)
    (a : local_actor any_tuple) (w : World) (whom : Nat) (what : any_tuple) :
    Effect World any_tuple :=
  ⟨a, env.enqueue whom self what w, [Call.enqueue whom self what]⟩

/-- Model of `void send_message(actor* whom, any_tuple what)`; `self` is the
address of the calling object. -/
def send_message (env : Collaborators World any_tuple) (self : Nat)
    (a : local_actor any_tuple) (w : World) (whom : Nat) (what : any_tuple) :
    Effect World any_tuple :=
  if a.m_chaining && !a.m_chained.isSome then
    let r := env.chained_enqueue whom self what w
    if r.1 then
      ⟨{ a with m_chained := some whom }, r.2, [Call.chained_enqueue whom self what r.1]⟩
    else
      ⟨a, r.2, [Call.chained_enqueue whom self what r.1]⟩
  else
    ⟨a, env.enqueue whom self what w, [Call.enqueue whom self what]⟩

end local_actor

/-- A call of one of the inline member functions that change state or send:
the two setters and the two overloads of `send_message`. -/
inductive Op (any_tuple : Type) where
  | trap_exit (new_value : Bool)
  | chaining (new_value : Bool)
  | send_message_channel (whom : Nat) (what : any_tuple)
  | send_message (whom : Nat) (what : any_tuple)
deriving DecidableEq, Repr

/-- Target and message of a `send_message` call; `none` for a setter. -/
def Op.request : Op any_tuple → Option (Nat × any_tuple)
  | .send_message_channel whom what => some (whom, what)
  | .send_message whom what => some (whom, what)
  | _ => none

/-- One call made by the actor at address `self`. -/
def step (env : Collaborators World any_tuple) (self : Nat) (o : Op any_tuple)
    (a : local_actor any_tuple) (w : World) : Effect World any_tuple :=
  match o with
  | .trap_exit v => ⟨a.trap_exit_set v, w, []⟩
  | .chaining v => ⟨a.chaining_set v, w, []⟩
  | .send_message_channel whom what => a.send_message_channel env self w whom what
  | .send_message whom what => a.send_message env self w whom what

/-- A sequence of calls made by the actor at address `self`, one after the
other; the virtual calls of the bodies are collected in order. -/
def run (env : Collaborators World any_tuple) (self : Nat) :
    List (Op any_tuple) → local_actor any_tuple → World → Effect World any_tuple
  | [], a, w => ⟨a, w, []⟩
  | o :: rest, a, w =>
    let e := step env self o a w
    let e' := run env self rest e.actor e.world
    ⟨e'.actor, e'.world, e.calls ++ e'.calls⟩

/-- The flag invariant: chaining is on only for a scheduled actor. -/
def chaining_implies_scheduled (a : local_actor any_tuple) : Prop :=
  a.m_chaining = true → a.m_is_scheduled = true

instance (a : local_actor any_tuple) : Decidable (chaining_implies_scheduled a) := by
  unfold chaining_implies_scheduled; infer_instance

/-! ## Concrete collaborators used at concrete inputs -/

/-- A world that is the list of messages lying in mailboxes, as
(target, sender, payload), newest last. -/
abbrev Mailboxes := List (Nat × Nat × Nat)

/-- Collaborators whose `chained_enqueue` stores the message and refuses the
hand-off (returns `false`), and whose `quit` returns by an exception. -/
def refusing : Collaborators Mailboxes Nat where
  enqueue whom sender what w := w ++ [(whom, sender, what)]
  chained_enqueue whom sender what w := (false, w ++ [(whom, sender, what)])
  quit _ a w := (a, w, true)
  exit_reason_normal := 1

/-- Collaborators whose `chained_enqueue` stores the message and accepts the
hand-off (returns `true`), and whose `quit` returns by an exception. -/
def accepting : Collaborators Mailboxes Nat where
  enqueue whom sender what w := w ++ [(whom, sender, what)]
  chained_enqueue whom sender what w := (true, w ++ [(whom, sender, what)])
  quit _ a w := (a, w, true)
  exit_reason_normal := 1

/-- A scheduled sender with chaining on and no pending chained actor. -/
def fresh_scheduled : local_actor Nat :=
  ⟨true, false, true, none, none, 0⟩

/-- A sender that is not scheduled although its chaining member is set. -/
def unscheduled_chaining : local_actor Nat :=
  ⟨true, false, false, none, none, 0⟩

/-- A scheduled sender with chaining on that already holds chained actor 9. -/
def pending_scheduled : local_actor Nat :=
  ⟨true, false, true, some 9, none, 0⟩

/-- A sender that is not scheduled and has chaining off. -/
def plain_thread : local_actor Nat :=
  ⟨false, false, false, none, none, 0⟩

/-- The `send_message(actor*, any_tuple)` calls for a list of
(target, message) pairs. -/
def actor_sends (sends : List (Nat × any_tuple)) : List (Op any_tuple) :=
  sends.map fun s => Op.send_message s.1 s.2

/-- The sends `sends` (target, message) of the actor at address `self` were
each handed to their target by exactly one call, in order, and these calls
were really performed: starting from world `w`, each call is either
`enqueue(self, message)` on the target, performed on the current world, or
`chained_enqueue(self, message)` on the target, performed on the current world
and recorded with the value it returned there; `w'` is the world after the
last call.  There is no call without a send and no send without a call. -/
def delivered (env : Collaborators World any_tuple) (self : Nat) :
    List (Nat × any_tuple) → List (Call any_tuple) → World → World → Prop
  | [], [], w, w' => w' = w
  | s :: ss, c :: cs, w, w' =>
    (c = Call.enqueue s.1 self s.2 ∧
      delivered env self ss cs (env.enqueue s.1 self s.2 w) w') ∨
    (c = Call.chained_enqueue s.1 self s.2 (env.chained_enqueue s.1 self s.2 w).1 ∧
      delivered env self ss cs (env.chained_enqueue s.1 self s.2 w).2 w')
  | _, _, _, _ => False

/-! ## Lemmas on the send path -/

lemma send_message_of_not_chaining (env : Collaborators World any_tuple) (self : Nat)
    (a : local_actor any_tuple) (w : World) (whom : Nat) (what : any_tuple)
    (h : a.m_chaining = false) :
    a.send_message env self w whom what
      = ⟨a, env.enqueue whom self what w, [Call.enqueue whom self what]⟩ := by
  simp [local_actor.send_message, h]

lemma send_message_of_pending (env : Collaborators World any_tuple) (self : Nat)
    (a : local_actor any_tuple) (w : World) (whom : Nat) (what : any_tuple) (c : Nat)
    (h : a.m_chained = some c) :
    a.send_message env self w whom what
      = ⟨a, env.enqueue whom self what w, [Call.enqueue whom self what]⟩ := by
  simp [local_actor.send_message, h]

lemma send_message_of_ready (env : Collaborators World any_tuple) (self : Nat)
    (a : local_actor any_tuple) (w : World) (whom : Nat) (what : any_tuple)
    (hc : a.m_chaining = true) (he : a.m_chained = none) :
    a.send_message env self w whom what
      = ⟨if (env.chained_enqueue whom self what w).1 then { a with m_chained := some whom } else a,
         (env.chained_enqueue whom self what w).2,
         [Call.chained_enqueue whom self what (env.chained_enqueue whom self what w).1]⟩ := by
  cases hr : (env.chained_enqueue whom self what w).1 <;>
    simp [local_actor.send_message, hc, he, hr]

lemma run_actor_sends_of_pending (env : Collaborators World any_tuple) (self : Nat)
    (a : local_actor any_tuple) (c : Nat) (h : a.m_chained = some c)
    (sends : List (Nat × any_tuple)) (w : World) :
    (run env self (actor_sends sends) a w).actor = a ∧
    (run env self (actor_sends sends) a w).calls
      = sends.map fun s => Call.enqueue s.1 self s.2 := by
  induction sends generalizing w with
  | nil => simp [actor_sends, run]
  | cons s rest ih =>
    have hs := send_message_of_pending env self a w s.1 s.2 c h
    have ih' := ih (env.enqueue s.1 self s.2 w)
    simp only [actor_sends] at ih'
    simp [actor_sends, run, step, hs, ih'.1, ih'.2]

lemma run_actor_sends_accepted_le_one (env : Collaborators World any_tuple) (self : Nat)
    (sends : List (Nat × any_tuple)) (a : local_actor any_tuple) (w : World) :
    ((run env self (actor_sends sends) a w).calls.filter Call.is_accepted).length ≤ 1 := by
  induction sends generalizing a w with
  | nil => simp [actor_sends, run]
  | cons s rest ih =>
    cases hch : a.m_chained with
    | some c =>
      have h := (run_actor_sends_of_pending env self a c hch (s :: rest) w).2
      rw [h, List.filter_map]
      simp [Function.comp_def, Call.is_accepted]
    | none =>
      cases hc : a.m_chaining with
      | false =>
        have hs := send_message_of_not_chaining env self a w s.1 s.2 hc
        have ih' := ih a (env.enqueue s.1 self s.2 w)
        simp only [actor_sends] at ih'
        simpa [actor_sends, run, step, hs, Call.is_accepted] using ih'
      | true =>
        have hs := send_message_of_ready env self a w s.1 s.2 hc hch
        cases hr : (env.chained_enqueue s.1 self s.2 w).1 with
        | false =>
          rw [hr] at hs
          have ih' := ih a (env.chained_enqueue s.1 self s.2 w).2
          simp only [actor_sends] at ih'
          simpa [actor_sends, run, step, hs, Call.is_accepted] using ih'
        | true =>
          rw [hr] at hs
          have hp := (run_actor_sends_of_pending env self
            { a with m_chained := some s.1 } s.1 rfl rest
            (env.chained_enqueue s.1 self s.2 w).2).2
          simp only [actor_sends] at hp
          simp [actor_sends, run, step, hs, hp, Call.is_accepted, List.filter_map,
            Function.comp_def]

lemma step_preserves_flags (env : Collaborators World any_tuple) (self : Nat)
    (o : Op any_tuple) (a : local_actor any_tuple) (w : World) :
    (step env self o a w).actor.m_is_scheduled = a.m_is_scheduled ∧
    ((step env self o a w).actor.m_chaining = a.m_chaining ∨ a.m_is_scheduled = true) := by
  cases o with
  | trap_exit v => simp [step, local_actor.trap_exit_set]
  | chaining v =>
    cases hs : a.m_is_scheduled <;> simp [step, local_actor.chaining_set, hs]
  | send_message_channel whom what => simp [step, local_actor.send_message_channel]
  | send_message whom what =>
    simp only [step, local_actor.send_message]
    split
    · split <;> simp
    · simp

lemma run_preserves_flags (env : Collaborators World any_tuple) (self : Nat)
    (ops : List (Op any_tuple)) (a : local_actor any_tuple) (w : World) :
    (run env self ops a w).actor.m_is_scheduled = a.m_is_scheduled ∧
    ((run env self ops a w).actor.m_chaining = a.m_chaining ∨ a.m_is_scheduled = true) := by
  induction ops generalizing a w with
  | nil => simp [run]
  | cons o rest ih =>
    have h1 := step_preserves_flags env self o a w
    have h2 := ih (step env self o a w).actor (step env self o a w).world
    simp only [run]
    refine ⟨h2.1.trans h1.1, ?_⟩
    rcases h2.2 with h3 | h3
    · rcases h1.2 with h4 | h4
      · exact Or.inl (h3.trans h4)
      · exact Or.inr h4
    · exact Or.inr (h1.1 ▸ h3)

lemma step_trap_exit (env : Collaborators World any_tuple) (self : Nat)
    (o : Op any_tuple) (a : local_actor any_tuple) (w : World)
    (h : ∀ v, o ≠ Op.trap_exit v) :
    (step env self o a w).actor.m_trap_exit = a.m_trap_exit := by
  cases o with
  | trap_exit v => exact absurd rfl (h v)
  | chaining v =>
    cases hs : a.m_is_scheduled <;> simp [step, local_actor.chaining_set, hs]
  | send_message_channel whom what => simp [step, local_actor.send_message_channel]
  | send_message whom what =>
    simp only [step, local_actor.send_message]
    split
    · split <;> simp
    · simp

lemma step_delivery (env : Collaborators World any_tuple) (self : Nat)
    (o : Op any_tuple) (a : local_actor any_tuple) (w : World) :
    (step env self o a w).calls.map Call.delivery
      = (o.request.map fun p => some (p.1, self, p.2)).toList := by
  cases o with
  | trap_exit v => simp [step, Op.request]
  | chaining v => simp [step, Op.request]
  | send_message_channel whom what =>
    simp [step, local_actor.send_message_channel, Op.request, Call.delivery]
  | send_message whom what =>
    simp only [step, local_actor.send_message]
    split
    · split <;> simp [Op.request, Call.delivery]
    · simp [Op.request, Call.delivery]

lemma send_message_call_performed (env : Collaborators World any_tuple) (self : Nat)
    (a : local_actor any_tuple) (w : World) (whom : Nat) (what : any_tuple) :
    ((a.send_message env self w whom what).calls = [Call.enqueue whom self what] ∧
      (a.send_message env self w whom what).world = env.enqueue whom self what w) ∨
    ((a.send_message env self w whom what).calls
        = [Call.chained_enqueue whom self what (env.chained_enqueue whom self what w).1] ∧
      (a.send_message env self w whom what).world
        = (env.chained_enqueue whom self what w).2) := by
  simp only [local_actor.send_message]
  split
  · split <;> simp
  · simp

/-! ## The send path: refused, accepted and ordinary sends -/

/-- C1, as stated, fails: a scheduled sender with chaining on and no chained
actor sends message 7 to actor 1, whose `chained_enqueue` returns `false`.
The body of `send_message` then makes the `chained_enqueue` call and nothing
else: there is no `enqueue` call on the target. -/
theorem send_message_refused_no_enqueue_call :
    fresh_scheduled.chaining = true ∧
    fresh_scheduled.chained_actor = none ∧
    (refusing.chained_enqueue 1 0 7 []).1 = false ∧
    Call.enqueue 1 0 7 ∉ (fresh_scheduled.send_message refusing 0 [] 1 7).calls ∧
    (fresh_scheduled.send_message refusing 0 [] 1 7).calls
      = [Call.chained_enqueue 1 0 7 false] := by
  decide

/-- C1, amended: when chaining is enabled, `chained_actor` is empty and the
target's `chained_enqueue` returns `false`, `send_message` makes exactly one
virtual call, the `chained_enqueue` call with this sender and the message, makes
no `enqueue` call of its own, and leaves every data member (so `chained_actor`
too) as it was; the world is the one `chained_enqueue` left. -/
theorem send_message_refused (env : Collaborators World any_tuple) (self : Nat)
    (a : local_actor any_tuple) (w : World) (whom : Nat) (what : any_tuple)
    (hc : a.chaining = true) (he : a.chained_actor = none)
    (hr : (env.chained_enqueue whom self what w).1 = false) :
    (a.send_message env self w whom what).calls
      = [Call.chained_enqueue whom self what false] ∧
    (∀ c ∈ (a.send_message env self w whom what).calls, c.is_enqueue = false) ∧
    (a.send_message env self w whom what).actor = a ∧
    (a.send_message env self w whom what).world
      = (env.chained_enqueue whom self what w).2 := by
  have h := send_message_of_ready env self a w whom what hc he
  rw [hr] at h
  simp [h, Call.is_enqueue]

/-- C1, amended, at a concrete input: the refused send of message 7 to actor 1. -/
theorem send_message_refused_witness :
    (fresh_scheduled.send_message refusing 0 [] 1 7).calls
      = [Call.chained_enqueue 1 0 7 false] ∧
    (∀ c ∈ (fresh_scheduled.send_message refusing 0 [] 1 7).calls, c.is_enqueue = false) ∧
    (fresh_scheduled.send_message refusing 0 [] 1 7).actor = fresh_scheduled ∧
    (fresh_scheduled.send_message refusing 0 [] 1 7).world
      = (refusing.chained_enqueue 1 0 7 []).2 :=
  send_message_refused refusing 0 fresh_scheduled [] 1 7 rfl rfl rfl

/-- C2: in every sequence of `send_message(actor*, ...)` calls made by one
actor, at most one `chained_enqueue` call is accepted; and once
`chained_actor` is non-empty, every later `send_message` call leaves the data
members unchanged (so `chained_actor` keeps its value) and the calls made are
exactly the ordinary `enqueue` calls of the sends, in order, with no
`chained_enqueue` among them.  This holds whether or not chaining is enabled. -/
theorem chained_handoff_exclusive (env : Collaborators World any_tuple) (self : Nat)
    (a : local_actor any_tuple) (w : World) (sends : List (Nat × any_tuple)) :
    ((run env self (actor_sends sends) a w).calls.filter Call.is_accepted).length ≤ 1 ∧
    (∀ c, a.chained_actor = some c →
      (run env self (actor_sends sends) a w).actor.chained_actor = some c ∧
      (run env self (actor_sends sends) a w).actor = a ∧
      (run env self (actor_sends sends) a w).calls
        = sends.map (fun s => Call.enqueue s.1 self s.2) ∧
      (∀ k ∈ (run env self (actor_sends sends) a w).calls, k.is_chained = false)) := by
  refine ⟨run_actor_sends_accepted_le_one env self sends a w, fun c hc => ?_⟩
  have h := run_actor_sends_of_pending env self a c hc sends w
  refine ⟨?_, h.1, h.2, ?_⟩
  · rw [h.1]; exact hc
  · rw [h.2]
    intro k hk
    obtain ⟨s, _, rfl⟩ := List.mem_map.mp hk
    rfl

/-- C2 at a concrete input: with chained actor 9 pending, two further sends
are two ordinary `enqueue` calls and actor 9 stays the chained actor. -/
theorem chained_handoff_exclusive_witness :
    (run accepting 0 (actor_sends [(1, 7), (2, 8)]) pending_scheduled []).actor.chained_actor
      = some 9 ∧
    (run accepting 0 (actor_sends [(1, 7), (2, 8)]) pending_scheduled []).calls
      = [Call.enqueue 1 0 7, Call.enqueue 2 0 8] :=
  ⟨((chained_handoff_exclusive accepting 0 pending_scheduled [] [(1, 7), (2, 8)]).2 9 rfl).1,
   ((chained_handoff_exclusive accepting 0 pending_scheduled [] [(1, 7), (2, 8)]).2 9 rfl).2.2.1⟩

/-- C3: when chaining is disabled or `chained_actor` is already non-empty,
`send_message` makes exactly one virtual call, `enqueue(sender, message)` on
the target, never calls `chained_enqueue`, and leaves the data members
(`chained_actor` among them) unchanged. -/
theorem send_message_ordinary (env : Collaborators World any_tuple) (self : Nat)
    (a : local_actor any_tuple) (w : World) (whom : Nat) (what : any_tuple)
    (h : a.chaining = false ∨ a.chained_actor ≠ none) :
    (a.send_message env self w whom what).calls = [Call.enqueue whom self what] ∧
    (∀ c ∈ (a.send_message env self w whom what).calls, c.is_chained = false) ∧
    (a.send_message env self w whom what).actor.chained_actor = a.chained_actor ∧
    (a.send_message env self w whom what).actor = a ∧
    (a.send_message env self w whom what).world = env.enqueue whom self what w := by
  have key : a.send_message env self w whom what
      = ⟨a, env.enqueue whom self what w, [Call.enqueue whom self what]⟩ := by
    rcases h with h | h
    · exact send_message_of_not_chaining env self a w whom what h
    · cases hch : a.m_chained with
      | none => exact absurd hch h
      | some c => exact send_message_of_pending env self a w whom what c hch
  simp [key, Call.is_chained]

/-- C3 at a concrete input: a sender that already holds chained actor 9. -/
theorem send_message_ordinary_witness :
    (pending_scheduled.send_message accepting 0 [] 1 7).calls = [Call.enqueue 1 0 7] ∧
    (pending_scheduled.send_message accepting 0 [] 1 7).actor.chained_actor = some 9 :=
  ⟨(send_message_ordinary accepting 0 pending_scheduled [] 1 7 (Or.inr (by decide))).1,
   (send_message_ordinary accepting 0 pending_scheduled [] 1 7 (Or.inr (by decide))).2.2.1⟩

/-- C4: when chaining is enabled, `chained_actor` is empty and the target's
`chained_enqueue` returns `true`, then after `send_message` the sender's
`chained_actor()` is the target, and the only virtual call made is that
`chained_enqueue`: no `enqueue` call was made. -/
theorem send_message_accepted (env : Collaborators World any_tuple) (self : Nat)
    (a : local_actor any_tuple) (w : World) (whom : Nat) (what : any_tuple)
    (hc : a.chaining = true) (he : a.chained_actor = none)
    (hr : (env.chained_enqueue whom self what w).1 = true) :
    (a.send_message env self w whom what).actor.chained_actor = some whom ∧
    (a.send_message env self w whom what).calls
      = [Call.chained_enqueue whom self what true] ∧
    (∀ c ∈ (a.send_message env self w whom what).calls, c.is_enqueue = false) := by
  have h := send_message_of_ready env self a w whom what hc he
  rw [hr] at h
  simp [h, Call.is_enqueue, local_actor.chained_actor]

/-- C4 at a concrete input: the accepted send of message 7 to actor 1. -/
theorem send_message_accepted_witness :
    (fresh_scheduled.send_message accepting 0 [] 1 7).actor.chained_actor = some 1 ∧
    (fresh_scheduled.send_message accepting 0 [] 1 7).calls
      = [Call.chained_enqueue 1 0 7 true] ∧
    (∀ c ∈ (fresh_scheduled.send_message accepting 0 [] 1 7).calls, c.is_enqueue = false) :=
  send_message_accepted accepting 0 fresh_scheduled [] 1 7 rfl rfl rfl

/-- C5, as stated, fails: a sender whose `m_is_scheduled` is `false` while its
`m_chaining` member is `true` and its chained actor is empty does call
`chained_enqueue`: `send_message` does not test `m_is_scheduled`. -/
theorem send_message_unscheduled_attempts_chained :
    unscheduled_chaining.m_is_scheduled = false ∧
    Call.chained_enqueue 1 0 7 false
      ∈ (unscheduled_chaining.send_message refusing 0 [] 1 7).calls := by
  decide

/-- C5, amended: for every sender state, `send_message` calls
`chained_enqueue` exactly when chaining is enabled and `chained_actor` is
empty; and for every sender state in which chaining enabled implies
`is_scheduled`, a `chained_enqueue` call is made only if all three hold: the
sender is scheduled, chaining is enabled and `chained_actor` is empty, so such
a sender that is not scheduled never calls `chained_enqueue`. -/
theorem send_message_chained_attempt_iff (env : Collaborators World any_tuple) (self : Nat)
    (a : local_actor any_tuple) (w : World) (whom : Nat) (what : any_tuple) :
    ((∃ c ∈ (a.send_message env self w whom what).calls, c.is_chained = true) ↔
      (a.chaining = true ∧ a.chained_actor = none)) ∧
    (chaining_implies_scheduled a →
      (∃ c ∈ (a.send_message env self w whom what).calls, c.is_chained = true) →
      a.m_is_scheduled = true ∧ a.chaining = true ∧ a.chained_actor = none) ∧
    (chaining_implies_scheduled a → a.m_is_scheduled = false →
      ∀ c ∈ (a.send_message env self w whom what).calls, c.is_chained = false) := by
  have hiff : (∃ c ∈ (a.send_message env self w whom what).calls, c.is_chained = true) ↔
      (a.chaining = true ∧ a.chained_actor = none) := by
    cases hc : a.m_chaining with
    | false =>
      simp [send_message_of_not_chaining env self a w whom what hc, Call.is_chained,
        local_actor.chaining, hc]
    | true =>
      cases hch : a.m_chained with
      | some c =>
        simp [send_message_of_pending env self a w whom what c hch, Call.is_chained,
          local_actor.chained_actor, hch]
      | none =>
        simp [send_message_of_ready env self a w whom what hc hch, Call.is_chained,
          local_actor.chaining, local_actor.chained_actor, hc, hch]
  refine ⟨hiff, fun hinv hex => ?_, fun hinv hns c hmem => ?_⟩
  · have h := hiff.mp hex
    exact ⟨hinv h.1, h⟩
  · cases hk : c.is_chained with
    | false => rfl
    | true =>
      have h := hiff.mp ⟨c, hmem, hk⟩
      rw [hinv h.1] at hns
      exact absurd hns (by decide)

/-- C5, amended, at a concrete input: a sender that is not scheduled and has
chaining off sends by an ordinary `enqueue`. -/
theorem send_message_chained_attempt_iff_witness :
    chaining_implies_scheduled plain_thread ∧
    plain_thread.m_is_scheduled = false ∧
    (∀ c ∈ (plain_thread.send_message accepting 0 [] 1 7).calls, c.is_chained = false) :=
  ⟨by decide, rfl,
   (send_message_chained_attempt_iff accepting 0 plain_thread [] 1 7).2.2 (by decide) rfl⟩

/-! ## The flags -/

/-- C6: after `chaining(v)` the getter `chaining()` returns `v` if
`is_scheduled` is true and its previous value if `is_scheduled` is false, and
`is_scheduled` is not changed by the call. -/
theorem chaining_set_honored_iff_scheduled (a : local_actor any_tuple) (v : Bool) :
    (a.chaining_set v).chaining = (if a.m_is_scheduled = true then v else a.chaining) ∧
    (a.chaining_set v).m_is_scheduled = a.m_is_scheduled := by
  cases hs : a.m_is_scheduled <;> simp [local_actor.chaining_set, local_actor.chaining, hs]

/-- C7: `quit_normal()` is `quit(exit_reason::normal)`: for every state and
every implementation of `quit`, it makes exactly one virtual call, `quit` with
the normal exit reason, and the resulting data members, world and exceptional
exit are exactly those of that implementation, so both calls have the same
result. -/
theorem quit_normal_eq_quit_normal_reason (env : Collaborators World any_tuple)
    (a : local_actor any_tuple) (w : World) :
    a.quit_normal env w = local_actor.quit env env.exit_reason_normal a w ∧
    (a.quit_normal env w).1.calls = [Call.quit env.exit_reason_normal] ∧
    ((a.quit_normal env w).1.actor, (a.quit_normal env w).1.world, (a.quit_normal env w).2)
      = env.quit env.exit_reason_normal a w := by
  simp [local_actor.quit_normal, local_actor.quit]

/-- C8: the predicate "chaining() implies is_scheduled" is preserved by
`chaining(bool)`, by `trap_exit(bool)`, by both `send_message` overloads, by
`quit_normal` (its body adds nothing to what the implementation of `quit`
does), and so by every sequence of setter and send calls; an actor that is not
scheduled keeps chaining off through every such sequence. -/
theorem chaining_implies_scheduled_preserved (env : Collaborators World any_tuple)
    (self : Nat) (a : local_actor any_tuple) (w : World)
    (h : chaining_implies_scheduled a) :
    (∀ v, chaining_implies_scheduled (a.chaining_set v)) ∧
    (∀ v, chaining_implies_scheduled (a.trap_exit_set v)) ∧
    (∀ whom what, chaining_implies_scheduled (a.send_message_channel env self w whom what).actor) ∧
    (∀ whom what, chaining_implies_scheduled (a.send_message env self w whom what).actor) ∧
    ((a.quit_normal env w).1.actor = (env.quit env.exit_reason_normal a w).1 ∧
      (chaining_implies_scheduled (env.quit env.exit_reason_normal a w).1 →
        chaining_implies_scheduled (a.quit_normal env w).1.actor)) ∧
    (∀ ops, chaining_implies_scheduled (run env self ops a w).actor) ∧
    (a.m_is_scheduled = false → ∀ ops,
      (run env self ops a w).actor.chaining = false ∧
      (run env self ops a w).actor.m_is_scheduled = false) := by
  have hstep : ∀ o, chaining_implies_scheduled (step env self o a w).actor := by
    intro o hc
    have hf := step_preserves_flags env self o a w
    rw [hf.1]
    rcases hf.2 with h2 | h2
    · exact h (h2 ▸ hc)
    · exact h2
  have hrun : ∀ ops, chaining_implies_scheduled (run env self ops a w).actor := by
    intro ops hc
    have hf := run_preserves_flags env self ops a w
    rw [hf.1]
    rcases hf.2 with h2 | h2
    · exact h (h2 ▸ hc)
    · exact h2
  refine ⟨fun v => hstep (Op.chaining v), fun v => hstep (Op.trap_exit v),
    fun whom what => hstep (Op.send_message_channel whom what),
    fun whom what => hstep (Op.send_message whom what),
    ⟨rfl, fun hq => hq⟩, hrun, fun hns ops => ?_⟩
  have hf := run_preserves_flags env self ops a w
  refine ⟨?_, hf.1.trans hns⟩
  cases hc : (run env self ops a w).actor.m_chaining with
  | false => simpa [local_actor.chaining] using hc
  | true =>
    have := hrun ops hc
    rw [hf.1, hns] at this
    exact absurd this (by decide)

/-- C8 at a concrete input: an actor that is not scheduled tries to switch
chaining on and then sends; chaining stays off and the sends are ordinary. -/
theorem chaining_implies_scheduled_preserved_witness :
    chaining_implies_scheduled plain_thread ∧
    chaining_implies_scheduled
      (run accepting 0 [Op.chaining true, Op.send_message 1 7] plain_thread []).actor ∧
    (run accepting 0 [Op.chaining true, Op.send_message 1 7] plain_thread []).actor.chaining
      = false :=
  ⟨by decide,
   (chaining_implies_scheduled_preserved accepting 0 plain_thread [] (by decide)).2.2.2.2.2.1 _,
   ((chaining_implies_scheduled_preserved accepting 0 plain_thread [] (by decide)).2.2.2.2.2.2
      rfl _).1⟩

/-- C9: every `send_message` call, of either overload, makes exactly one
virtual call, a delivery call on its target (`enqueue` or `chained_enqueue`)
with this actor as sender and the message passed as payload, and that call is
really performed: the world after the send is the world the callee left
(the target's `enqueue`, or the target's `chained_enqueue`, recorded with the
value it returned).  In every sequence of calls the delivery calls are, in
order, those of the `send_message` calls of the sequence, each performed on
the world its predecessors left, and the final world is the one the last of
them left. -/
theorem send_message_delivers_once_in_order (env : Collaborators World any_tuple)
    (self : Nat) (a : local_actor any_tuple) (w : World) :
    (∀ whom what, ∃ c, (a.send_message env self w whom what).calls = [c] ∧
      (c = Call.enqueue whom self what ∨ ∃ r, c = Call.chained_enqueue whom self what r)) ∧
    (∀ whom what,
      ((a.send_message env self w whom what).calls = [Call.enqueue whom self what] ∧
        (a.send_message env self w whom what).world = env.enqueue whom self what w) ∨
      ((a.send_message env self w whom what).calls
          = [Call.chained_enqueue whom self what (env.chained_enqueue whom self what w).1] ∧
        (a.send_message env self w whom what).world
          = (env.chained_enqueue whom self what w).2)) ∧
    (∀ whom what, (a.send_message_channel env self w whom what).calls
      = [Call.enqueue whom self what]) ∧
    (∀ whom what, (a.send_message_channel env self w whom what).world
      = env.enqueue whom self what w) ∧
    (∀ ops, (run env self ops a w).calls.map Call.delivery
      = (ops.filterMap Op.request).map fun p => some (p.1, self, p.2)) ∧
    (∀ ops, delivered env self (ops.filterMap Op.request)
      (run env self ops a w).calls w (run env self ops a w).world) := by
  refine ⟨fun whom what => ?_, fun whom what => ?_, fun whom what => rfl,
    fun whom what => rfl, fun ops => ?_, fun ops => ?_⟩
  · simp only [local_actor.send_message]
    split
    · split <;> simp
    · simp
  · simp only [local_actor.send_message]
    split
    · split <;> simp
    · simp
  · induction ops generalizing a w with
    | nil => simp [run]
    | cons o rest ih =>
      have h1 := step_delivery env self o a w
      have h2 := ih (step env self o a w).actor (step env self o a w).world
      simp only [run, List.map_append, h1, h2]
      cases hr : o.request <;> simp [List.filterMap_cons, hr]
  · induction ops generalizing a w with
    | nil => simp [run, delivered]
    | cons o rest ih =>
      have h2 := ih (step env self o a w).actor (step env self o a w).world
      cases o with
      | trap_exit v => simpa [run, step, Op.request] using h2
      | chaining v => simpa [run, step, Op.request] using h2
      | send_message_channel whom what =>
        simp only [step, local_actor.send_message_channel] at h2
        simp only [run, step, local_actor.send_message_channel, Op.request,
          List.filterMap_cons, List.singleton_append]
        exact Or.inl ⟨rfl, h2⟩
      | send_message whom what =>
        simp only [step] at h2
        simp only [run, step, Op.request, List.filterMap_cons]
        rcases send_message_call_performed env self a w whom what with h | h
        · rw [h.1, h.2, List.singleton_append]
          rw [h.2] at h2
          exact Or.inl ⟨rfl, h2⟩
        · rw [h.1, h.2, List.singleton_append]
          rw [h.2] at h2
          exact Or.inr ⟨rfl, h2⟩

/-- C10: after `trap_exit(v)` the getter `trap_exit()` returns `v` whatever
`is_scheduled` is, setting it twice with the same value equals setting it
once, and `chaining`, `is_scheduled`, `chained_actor`, `last_sender` and
`last_dequeued` are unchanged; `chaining(bool)` and both `send_message`
overloads leave `trap_exit()` unchanged. -/
theorem trap_exit_independent (env : Collaborators World any_tuple) (self : Nat)
    (a : local_actor any_tuple) (w : World) (v : Bool) :
    (a.trap_exit_set v).trap_exit = v ∧
    (a.trap_exit_set v).trap_exit_set v = a.trap_exit_set v ∧
    ((a.trap_exit_set v).chaining = a.chaining ∧
      (a.trap_exit_set v).m_is_scheduled = a.m_is_scheduled ∧
      (a.trap_exit_set v).chained_actor = a.chained_actor ∧
      (a.trap_exit_set v).last_sender = a.last_sender ∧
      (a.trap_exit_set v).last_dequeued = a.last_dequeued) ∧
    (∀ u, (a.chaining_set u).trap_exit = a.trap_exit) ∧
    (∀ whom what, (a.send_message_channel env self w whom what).actor.trap_exit = a.trap_exit) ∧
    (∀ whom what, (a.send_message env self w whom what).actor.trap_exit = a.trap_exit) := by
  refine ⟨rfl, rfl, ⟨rfl, rfl, rfl, rfl, rfl⟩, fun u => ?_, fun _ _ => rfl, fun whom what => ?_⟩
  · exact step_trap_exit env self (Op.chaining u) a w (fun _ h => by cases h)
  · exact step_trap_exit env self (Op.send_message whom what) a w (fun _ h => by cases h)

end cppa
